import Mathlib

/-!
Shallow embedding of the breachman core (src/breachman/core.py and
src/breachman/terminal.py): the grid of tiles, the immutable buffer,
the per-target progress evaluator SequenceState, the search Node with
its choices / prime candidates / children, and the solvability check
from terminal.py. Fallible Python operations (IndexError, TypeError)
are modelled with Option, where none is a raised exception.
-/

/-- Tile (core.py lines 19-37): a token value plus row and column
coordinates. Python equality and hashing use only (row, col). -/
structure Tile where
  val : String
  row : Nat
  col : Nat
deriving DecidableEq

/-- Python equality of two tiles: hash((row, col)) based, so it compares
the coordinate pairs and ignores the token value. -/
def tileEqPy (a b : Tile) : Bool :=
  a.row == b.row && a.col == b.col

/-- Python equality between a Tile and a string Counter key. Tile.__eq__
compares hash((row, col)) with the hash of the string; a tile never
compares equal to a string (modulo astronomically unlikely collisions of
the randomized CPython string hash), so this is constantly false. This
models the test `c in unlock_counts` in Node.prime_candidates, where c
is a Tile and the Counter keys are token strings. -/
def tileEqStr (_ : Tile) (_ : String) : Bool := false

/-- Buffer (core.py lines 40-61): an immutable tuple of tiles; the
derived set _buff_set is represented by the membership test below. -/
structure Buffer where
  state : List Tile
deriving DecidableEq

/-- Buffer.__contains__ via _buff_set: membership under Python tile
equality (coordinates only). -/
def Buffer.containsPy (b : Buffer) (t : Tile) : Bool :=
  b.state.any (fun x => tileEqPy x t)

/-- Buffer.add (core.py line 50): returns a new Buffer built from
state + (other,); the receiver is not touched. -/
def Buffer.add (b : Buffer) (t : Tile) : Buffer :=
  ⟨b.state ++ [t]⟩

/-- SequenceState (core.py lines 98-126): the evaluation result of one
target sequence against a buffer: matched count plus the success and
failed flags. The seq itself is passed separately to the builder. -/
structure SequenceState where
  solvedCount : Nat
  success : Bool
  failed : Bool
deriving DecidableEq

/-- The first loop of SequenceState.__init__ (lines 105-110): scan the
buffer for the first tile whose val equals the first token; on a hit,
return the part of the buffer after that tile (buff[index + 1 :]);
none when the token does not occur (the for-else return). -/
def afterFirstMatch (first : String) : List Tile → Option (List Tile)
  | [] => none
  | t :: ts => if t.val = first then some ts else afterFirstMatch first ts

/-- The second loop of SequenceState.__init__ (lines 111-119), started
with solved = 1. Reading seq[solved] out of bounds is an IndexError,
modelled as none. On a match the count advances and success is set when
it reaches len(seq); on a mismatch the code fails permanently when
max_size < solved + remaining with remaining = len(seq) - solved. -/
def scanLoop (seq : List String) (maxSize : Nat) : Nat → List Tile → Option SequenceState
  | solved, [] => some ⟨solved, false, false⟩
  | solved, t :: ts =>
    match seq.get? solved with
    | none => none
    | some v =>
      if t.val = v then
        if solved + 1 = seq.length then some ⟨solved + 1, true, false⟩
        else scanLoop seq maxSize (solved + 1) ts
      else
        if maxSize < solved + (seq.length - solved) then some ⟨solved, false, true⟩
        else scanLoop seq maxSize solved ts

/-- SequenceState.__init__ (core.py lines 99-119). seq[0] on an empty
sequence is an IndexError (none). When the first token never occurs in
the buffer the for-else returns with count 0 and both flags false;
otherwise the second loop runs on the rest of the buffer. -/
def SequenceState.build (seq : List String) (buff : List Tile) (maxSize : Nat) :
    Option SequenceState :=
  match seq with
  | [] => none
  | first :: _ =>
    match afterFirstMatch first buff with
    | none => some ⟨0, false, false⟩
    | some rest => scanLoop seq maxSize 1 rest

/-- Pure predicate used to state claim C4: scanning the buffer suffix
after the first match, does some entry fail to match the currently
sought element before the subsequence match completes? It mirrors the
match/advance structure of scanLoop without the failure short-circuit;
up to the first mismatch both walks agree, so the predicate is exactly
"the real scan encounters a mismatch before completing". -/
def hasMismatch (seq : List String) : Nat → List Tile → Bool
  | _, [] => false
  | solved, t :: ts =>
    match seq.get? solved with
    | none => false
    | some v =>
      if t.val = v then
        if solved + 1 = seq.length then false
        else hasMismatch seq (solved + 1) ts
      else true

/-- The first token of the target occurs somewhere in the buffer. -/
def firstTokenFound (seq : List String) (buff : List Tile) : Bool :=
  match seq with
  | [] => false
  | first :: _ => (afterFirstMatch first buff).isSome

/-- After the first match of the first token, some later entry
mismatches the sought element before the match completes. -/
def mismatchAfterFirstMatch (seq : List String) (buff : List Tile) : Bool :=
  match seq with
  | [] => false
  | first :: _ =>
    match afterFirstMatch first buff with
    | none => false
    | some rest => hasMismatch seq 1 rest

theorem scanLoop_failed_eq (seq : List String) (maxSize : Nat) :
    ∀ (rest : List Tile) (solved : Nat) (st : SequenceState),
      scanLoop seq maxSize solved rest = some st →
      st.failed = (decide (maxSize < seq.length) && hasMismatch seq solved rest) := by
  intro rest
  induction rest with
  | nil =>
    intro solved st h
    simp only [scanLoop] at h
    cases h
    simp [hasMismatch]
  | cons t ts ih =>
    intro solved st h
    simp only [scanLoop] at h
    simp only [hasMismatch]
    cases hv : seq.get? solved with
    | none =>
      try rw [hv] at h
      exact absurd h (by simp)
    | some v =>
      have hlt : solved < seq.length := (List.get?_eq_some.mp hv).1
      have hsum : solved + (seq.length - solved) = seq.length :=
        Nat.add_sub_cancel' (Nat.le_of_lt hlt)
      try rw [hv] at h
      try rw [hv]
      try rw [List.get?_eq_getElem?] at hv
      try rw [hv] at h
      try rw [hv]
      dsimp only at h ⊢
      by_cases hm : t.val = v
      · rw [if_pos hm] at h
        rw [if_pos hm]
        by_cases hc : solved + 1 = seq.length
        · rw [if_pos hc] at h
          rw [if_pos hc]
          cases h
          simp
        · rw [if_neg hc] at h
          rw [if_neg hc]
          exact ih (solved + 1) st h
      · rw [if_neg hm] at h
        rw [if_neg hm]
        rw [hsum] at h
        by_cases hf : maxSize < seq.length
        · rw [if_pos hf] at h
          cases h
          simp [hf]
        · rw [if_neg hf] at h
          have hih := ih solved st h
          rw [hih]
          simp [hf]

/-- C4: a SequenceState that builds without exception is failed exactly
when the first token of the target occurs in the path, a later path
entry mismatches the currently sought element before the subsequence
match completes, and the total length of the target exceeds the buffer
capacity maxSize; in particular a target no longer than maxSize is
never marked failed. -/
theorem sequenceState_failed_iff (seq : List String) (buff : List Tile) (maxSize : Nat)
    (st : SequenceState) (h : SequenceState.build seq buff maxSize = some st) :
    (st.failed = true ↔
      (maxSize < seq.length ∧ firstTokenFound seq buff = true ∧
        mismatchAfterFirstMatch seq buff = true)) ∧
    (seq.length ≤ maxSize → st.failed = false) := by
  cases seq with
  | nil => exact absurd h (by simp [SequenceState.build])
  | cons first rest =>
    simp only [SequenceState.build] at h
    simp only [firstTokenFound, mismatchAfterFirstMatch]
    cases hf : afterFirstMatch first buff with
    | none =>
      rw [hf] at h
      dsimp only at h ⊢
      cases h
      constructor
      · simp
      · intro _
        rfl
    | some r =>
      rw [hf] at h
      dsimp only at h ⊢
      have hfail := scanLoop_failed_eq (first :: rest) maxSize r 1 st h
      constructor
      · rw [hfail]
        constructor
        · intro hb
          have := Bool.and_eq_true _ _ |>.mp hb
          exact ⟨of_decide_eq_true this.1, rfl, this.2⟩
        · intro ⟨h1, _, h3⟩
          rw [decide_eq_true h1, h3]
          rfl
      · intro hle
        rw [hfail]
        have : decide (maxSize < (first :: rest).length) = false :=
          decide_eq_false (Nat.not_lt.mpr hle)
        rw [this]
        rfl

/-- C4 witness: the target A B C with capacity 2 starts matching on the
path A X, hits the mismatch X, and since 3 > 2 is marked failed. -/
theorem sequenceState_failed_iff_witness :
    (SequenceState.build ["A", "B", "C"] [⟨"A", 0, 0⟩, ⟨"X", 0, 1⟩] 2 =
      some ⟨1, false, true⟩) ∧
    ((⟨1, false, true⟩ : SequenceState).failed = true ↔
      (2 < List.length ["A", "B", "C"] ∧
        firstTokenFound ["A", "B", "C"] [⟨"A", 0, 0⟩, ⟨"X", 0, 1⟩] = true ∧
        mismatchAfterFirstMatch ["A", "B", "C"] [⟨"A", 0, 0⟩, ⟨"X", 0, 1⟩] = true)) :=
  ⟨rfl,
    (sequenceState_failed_iff ["A", "B", "C"] [⟨"A", 0, 0⟩, ⟨"X", 0, 1⟩] 2
      ⟨1, false, true⟩ rfl).1⟩

/-- C1: evaluation of SequenceState at a length-one target whose token
occurs as the last path entry. The first loop brings the matched count
to 1 = len(seq) but the success flag is never set: the code sets
success only inside the second loop, which a length-one target never
enters, so the target is not reported successful even though the
matched count reached the target length. -/
theorem lengthOne_target_not_success :
    SequenceState.build ["55"] [⟨"55", 0, 0⟩] 8 = some ⟨1, false, false⟩ ∧
    List.length ["55"] = 1 :=
  ⟨rfl, rfl⟩

/-- C2: evaluation of SequenceState at a length-one target whose token
is matched and followed by a further path entry. The second loop reads
seq[self._solved_count] = seq[1] on a sequence of length 1, an
out-of-bounds index (IndexError), modelled as none. -/
theorem lengthOne_target_index_error :
    SequenceState.build ["55"] [⟨"55", 0, 0⟩, ⟨"1C", 0, 1⟩] 8 = none :=
  rfl

/-- C9: Buffer.add builds a new Buffer whose state is the old state
with the new tile appended: the new length is the old length plus one
and the old contents sit unchanged as the front of the new state. The
receiver itself is untouched (core.py line 50 constructs a fresh Buffer
from state + (other,), never assigning to the receiver; in this pure
embedding immutability of the argument is by construction). -/
theorem buffer_add_is_append (b : Buffer) (c : Tile) :
    (b.add c).state = b.state ++ [c] ∧
    (b.add c).state.length = b.state.length + 1 ∧
    (b.add c).state.take b.state.length = b.state := by
  refine ⟨rfl, by simp [Buffer.add], ?_⟩
  simp [Buffer.add]

/-- Helper for Grid.__init__ (core.py lines 72-77): the inner loop of
row construction, enumerating column indices. -/
def mkRow (ri : Nat) : Nat → List String → List Tile
  | _, [] => []
  | ci, v :: vs => ⟨v, ri, ci⟩ :: mkRow ri (ci + 1) vs

/-- Helper for Grid.__init__: the outer loop over the matrix rows,
enumerating row indices. -/
def mkRows : Nat → List (List String) → List (List Tile)
  | _, [] => []
  | ri, r :: rs => mkRow ri 0 r :: mkRows (ri + 1) rs

/-- Grid (core.py lines 67-95): the rows built from the matrix and the
column views. -/
structure Grid where
  rows : List (List Tile)
  columns : List (List Tile)
deriving DecidableEq

/-- Grid.__init__ (core.py lines 70-83). Note the column views: the code
allocates one column list per ROW (range(len(self.rows))) and fills
column i with every tile of the grid whose col coordinate equals i, in
row-major order. -/
def gridInit (matrix : List (List String)) : Grid :=
  let rows := mkRows 0 matrix
  { rows := rows
    columns := (List.range rows.length).map
      (fun idx => rows.flatten.filter (fun t => t.col == idx)) }

/-- C10: evaluation of Grid.__init__ at the rectangular one-row matrix
with two columns. The code builds len(rows) = 1 column views, so the
Cell with token B at (0, 1) sits in the row view but in no column view,
against the claim that every Cell appears in exactly one column view. -/
theorem grid_wide_matrix_loses_column :
    (gridInit [["A", "B"]]).rows = [[⟨"A", 0, 0⟩, ⟨"B", 0, 1⟩]] ∧
    (gridInit [["A", "B"]]).columns = [[⟨"A", 0, 0⟩]] ∧
    ((gridInit [["A", "B"]]).columns.any
      (fun col => col.any (fun t => t.col == 1))) = false := by
  refine ⟨rfl, rfl, rfl⟩

/-- Node (core.py lines 132-159): the search-tree vertex state. The
Python object also stores derived members (sequence_states, children,
choices, last_selection, next_selection_type); those are recomputed
below as functions of this state, exactly as the properties compute
them. selectionType true is the string row, false is col; the branch
on line 154 maps row to col and anything else to row, which on the
two values actually used is boolean negation. -/
structure Node where
  grid : Grid
  buffer : Buffer
  maxSize : Nat
  seqs : List (List String)
  selectionType : Bool
deriving DecidableEq

/-- Sequence the Options of a list; none as soon as one element is
none, mirroring an exception escaping a list comprehension. -/
def listOptionAll {α : Type} : List (Option α) → Option (List α)
  | [] => some []
  | none :: _ => none
  | some a :: rest => (listOptionAll rest).map (fun l => a :: l)

/-- Node.sequence_states (core.py line 142): one SequenceState per
unlock sequence, evaluated against this buffer; none when any of the
constructions raises. -/
def Node.seqStatesO (n : Node) : Option (List SequenceState) :=
  listOptionAll (n.seqs.map (fun s => SequenceState.build s n.buffer.state n.maxSize))

/-- Node.is_complete (core.py lines 246-248): every sequence state
reports success. A node whose construction raised never exists in
Python; such a state is mapped to false here. -/
def Node.isComplete (n : Node) : Bool :=
  match n.seqStatesO with
  | some sts => sts.all (fun st => st.success)
  | none => false

/-- Node.sequence_index (core.py lines 178-180): current buffer length
plus one. -/
def Node.sequenceIndex (n : Node) : Nat :=
  n.buffer.state.length + 1

/-- Counter increment preserving insertion order of first appearance,
as a Python Counter (an insertion-ordered dict) does. -/
def counterAdd (k : String) : List (String × Nat) → List (String × Nat)
  | [] => [(k, 1)]
  | (k2, c) :: rest => if k2 = k then (k2, c + 1) :: rest else (k2, c) :: counterAdd k rest

/-- Node.next_unlocks (core.py lines 182-202): counts of the token each
unlock sequence needs at index sequence_index; a sequence whose bound
unlock_index > len(seq) - 1 is skipped, which is exactly the sequences
with no element at that index (sequence_index is at least 1, so the
length-zero corner of the Python int arithmetic agrees). -/
def Node.nextUnlocks (n : Node) : List (String × Nat) :=
  n.seqs.foldl
    (fun acc seq =>
      match seq.get? n.sequenceIndex with
      | some v => counterAdd v acc
      | none => acc)
    []

/-- The Counter membership test of core.py line 213, `c in unlock_counts`
with c a Tile: true when some key equals the tile under Python
cross-type equality, hence constantly false. -/
def tileInCounter (c : Tile) (counter : List (String × Nat)) : Bool :=
  counter.any (fun kv => tileEqStr c kv.1)

/-- Counter.get with a Tile argument (the sort key of core.py line 213):
the count of the first key equal to the tile, none (Python None) when
no key matches, which is always. -/
def counterGet (counter : List (String × Nat)) (c : Tile) : Option Nat :=
  (counter.find? (fun kv => tileEqStr c kv.1)).map (fun kv => kv.2)

/-- Stable insertion of a tile into a list already sorted by descending
key (larger keys first; on ties the earlier element stays first). -/
def insertByKeyDesc (key : Tile → Nat) (c : Tile) : List Tile → List Tile
  | [] => [c]
  | x :: xs => if key x < key c then c :: x :: xs else x :: insertByKeyDesc key c xs

/-- Auxiliary stable sort, descending by key. -/
def sortByKeyDesc (key : Tile → Nat) : List Tile → List Tile
  | [] => []
  | x :: xs => insertByKeyDesc key x (sortByKeyDesc key xs)

/-- sorted(candidates, key=unlock_counts.get, reverse=True) of core.py
line 213. Python compares the key values; with at least two elements
any None key reaches a comparison and raises TypeError (none here). A
list of at most one element is returned as is without comparing. -/
def sortedByUnlockDesc (cs : List Tile) (counter : List (String × Nat)) :
    Option (List Tile) :=
  if cs.length ≤ 1 then some cs
  else if cs.all (fun c => (counterGet counter c).isSome) then
    some (sortByKeyDesc (fun c => (counterGet counter c).getD 0) cs)
  else none

/-- Node.choices (core.py lines 215-231). With an empty buffer there is
no last selection and the first grid row is returned (grid[0], an
IndexError on an empty grid, hence the Option). Otherwise the row or
column of the last selection is taken (IndexError when out of range)
and tiles already in the buffer are filtered out. -/
def Node.choicesO (n : Node) : Option (List Tile) :=
  match n.buffer.state.getLast? with
  | none => n.grid.rows.get? 0
  | some last =>
    let elementsO := if n.selectionType then n.grid.rows.get? last.row
      else n.grid.columns.get? last.col
    elementsO.map (List.filter (fun i => !(n.buffer.containsPy i)))

/-- The choices list as seen by a successfully constructed node. -/
def Node.choicesList (n : Node) : List Tile :=
  (n.choicesO).getD []

/-- Node.prime_candidates (core.py lines 204-213): None (inner none)
when next_unlocks is empty, otherwise the choices whose Tile is a
Counter member, sorted by descending count. The outer none is a raised
exception (from choices, or a TypeError inside sorted). -/
def Node.primeCandidatesO (n : Node) : Option (Option (List Tile)) :=
  let counter := n.nextUnlocks
  if counter.isEmpty then some none
  else
    match n.choicesO with
    | none => none
    | some cs =>
      match sortedByUnlockDesc (cs.filter (fun c => tileInCounter c counter)) counter with
      | none => none
      | some l => some (some l)

/-- Node.next_candidates (core.py lines 233-244): None when the buffer
is full; at one slot below capacity, prime_candidates or None (an empty
list is falsy); otherwise the plain choices. The comparison
curr_size == max_size - 1 is stated as curr_size + 1 == max_size, which
agrees with the Python int arithmetic for every max_size: when
max_size = 0 the first branch already fired for curr_size = 0 and
curr_size == -1 is false for the rest. -/
def Node.nextCandidatesO (n : Node) : Option (Option (List Tile)) :=
  if n.buffer.state.length = n.maxSize then some none
  else if n.buffer.state.length + 1 = n.maxSize then
    match n.primeCandidatesO with
    | none => none
    | some none => some none
    | some (some []) => some none
    | some (some l) => some (some l)
  else
    match n.choicesO with
    | none => none
    | some cs => some (some cs)

/-- The candidate list actually iterated by Node.children (line 166):
`self.next_candidates or []` turns None into the empty list. -/
def Node.nextCandidatesList (n : Node) : List Tile :=
  match n.nextCandidatesO with
  | some (some l) => l
  | _ => []

/-- Node.children (core.py lines 161-176): one child per candidate,
extending the buffer with that tile and flipping the selection axis;
grid, capacity and unlock sequences are passed through unchanged. -/
def Node.childrenList (n : Node) : List Node :=
  n.nextCandidatesList.map
    (fun c =>
      { grid := n.grid
        buffer := n.buffer.add c
        maxSize := n.maxSize
        seqs := n.seqs
        selectionType := !n.selectionType })

/-- Shared helper: a node whose buffer already has maxSize entries has
no candidate moves and hence no children (first branch of
next_candidates, core.py lines 240-241). -/
theorem childrenList_eq_nil_of_full (n : Node) (h : n.buffer.state.length = n.maxSize) :
    n.childrenList = [] := by
  simp [Node.childrenList, Node.nextCandidatesList, Node.nextCandidatesO, h]

/-- C3: evaluation of prime_candidates at a node where next_unlocks is
the non-empty Counter with key A, and choices holds exactly the tile
with token A. The claim says this tile is kept; the code filters with
`c in unlock_counts`, a Tile-against-string-key membership that never
holds, so prime_candidates returns the empty list. -/
theorem primeCandidates_drops_matching_token :
    Node.nextUnlocks
        { grid := gridInit [["A"]], buffer := ⟨[]⟩, maxSize := 3,
          seqs := [["B", "A"]], selectionType := true } = [("A", 1)] ∧
    Node.choicesO
        { grid := gridInit [["A"]], buffer := ⟨[]⟩, maxSize := 3,
          seqs := [["B", "A"]], selectionType := true } = some [⟨"A", 0, 0⟩] ∧
    (Node.nextUnlocks
        { grid := gridInit [["A"]], buffer := ⟨[]⟩, maxSize := 3,
          seqs := [["B", "A"]], selectionType := true }).any
      (fun kv => kv.1 == (Tile.mk "A" 0 0).val) = true ∧
    Node.primeCandidatesO
        { grid := gridInit [["A"]], buffer := ⟨[]⟩, maxSize := 3,
          seqs := [["B", "A"]], selectionType := true } = some (some []) := by
  refine ⟨rfl, rfl, rfl, rfl⟩

/-- C5 counterexample: a reachable child node one slot below capacity
whose children list is empty, so children being empty is not equivalent
to the path length equalling maxSize. The node is the single child of
the root over the one-cell grid A with capacity 2 and target A A: at
depth 1 = maxSize - 1 the candidates are prime_candidates or None, and
next_unlocks is empty (sequence_index 2 is past the target), so there
are no children although the path length 1 is below the capacity 2. -/
theorem child_below_capacity_no_children :
    ({ grid := gridInit [["A"]], buffer := ⟨[⟨"A", 0, 0⟩]⟩, maxSize := 2,
       seqs := [["A", "A"]], selectionType := false } : Node) ∈
      Node.childrenList
        { grid := gridInit [["A"]], buffer := ⟨[]⟩, maxSize := 2,
          seqs := [["A", "A"]], selectionType := true } ∧
    Node.childrenList
        { grid := gridInit [["A"]], buffer := ⟨[⟨"A", 0, 0⟩]⟩, maxSize := 2,
          seqs := [["A", "A"]], selectionType := false } = [] ∧
    ({ grid := gridInit [["A"]], buffer := ⟨[⟨"A", 0, 0⟩]⟩, maxSize := 2,
       seqs := [["A", "A"]], selectionType := false } : Node).buffer.state.length <
      ({ grid := gridInit [["A"]], buffer := ⟨[⟨"A", 0, 0⟩]⟩, maxSize := 2,
         seqs := [["A", "A"]], selectionType := false } : Node).maxSize := by
  refine ⟨by decide, by decide, by decide⟩

/-- C5 amended: the direction that survives: whenever the path length
equals maxSize the children list is empty; the converse fails (see the
counterexample), since children can also be empty below capacity. -/
theorem children_empty_at_capacity (n : Node)
    (h : n.buffer.state.length = n.maxSize) : n.childrenList = [] :=
  childrenList_eq_nil_of_full n h

/-- C5 amended witness: a concrete full node has no children. -/
theorem children_empty_at_capacity_witness :
    Node.childrenList
      { grid := gridInit [["A"]], buffer := ⟨[⟨"A", 0, 0⟩]⟩, maxSize := 1,
        seqs := [["A", "A"]], selectionType := false } = [] :=
  children_empty_at_capacity
    { grid := gridInit [["A"]], buffer := ⟨[⟨"A", 0, 0⟩]⟩, maxSize := 1,
      seqs := [["A", "A"]], selectionType := false } rfl

/-- C8 counterexample: malformed input is not rejected. The
non-rectangular matrix with rows A and B C constructs a Grid with both
row views intact (no exception is possible in Grid.__init__ on list
input, there is no validation), and a Node with capacity 0 (a
non-positive capacity) constructs successfully: its sequence states
evaluate and it is a usable terminal object with an empty children
list. -/
theorem malformed_input_not_rejected :
    (gridInit [["A"], ["B", "C"]]).rows =
      [[⟨"A", 0, 0⟩], [⟨"B", 1, 0⟩, ⟨"C", 1, 1⟩]] ∧
    Node.seqStatesO
        { grid := gridInit [["A"]], buffer := ⟨[]⟩, maxSize := 0,
          seqs := [["A", "B"]], selectionType := true } =
      some [⟨0, false, false⟩] ∧
    Node.childrenList
        { grid := gridInit [["A"]], buffer := ⟨[]⟩, maxSize := 0,
          seqs := [["A", "B"]], selectionType := true } = [] := by
  refine ⟨rfl, rfl, rfl⟩

theorem mkRows_length : ∀ (ri : Nat) (m : List (List String)),
    (mkRows ri m).length = m.length := by
  intro ri m
  induction m generalizing ri with
  | nil => rfl
  | cons r rs ih => simp [mkRows, ih]

/-- C8 amended: the constructors validate nothing. Grid.__init__
accepts every matrix, including non-rectangular ones, and produces one
row view per input row without raising; a Node with non-positive
capacity is likewise accepted and is simply a childless node. The only
construction-time failure is incidental: SequenceState.__init__ raises
IndexError on an empty target sequence (seq[0]), not a deliberate
precondition check. -/
theorem constructors_do_not_validate :
    (∀ matrix : List (List String), (gridInit matrix).rows.length = matrix.length) ∧
    (∀ (buff : List Tile) (maxSize : Nat), SequenceState.build [] buff maxSize = none) ∧
    (∀ (g : Grid) (seqs : List (List String)) (sel : Bool),
      Node.childrenList
        { grid := g, buffer := ⟨[]⟩, maxSize := 0, seqs := seqs,
          selectionType := sel } = []) :=
  ⟨fun matrix => mkRows_length 0 matrix,
   fun _ _ => rfl,
   fun g seqs sel =>
     childrenList_eq_nil_of_full
       { grid := g, buffer := ⟨[]⟩, maxSize := 0, seqs := seqs,
         selectionType := sel } rfl⟩

/-- _validate_node (terminal.py lines 58-66) with an explicit recursion
depth: true when the node is complete, when a direct child is complete
(the for loop), or when the recursive check holds for some child (the
for-else any). The fuel bounds the recursion depth; the Python
recursion terminates because every child strictly shrinks the set of
grid tiles outside the buffer, so for large enough fuel this is the
Python function. -/
def validateNode : Nat → Node → Bool
  | 0, _ => false
  | fuel + 1, n =>
    if n.isComplete then true
    else if n.childrenList.any (fun c => c.isComplete) then true
    else n.childrenList.any (validateNode fuel)

/-- The nodes reachable from a node through repeated children: the
subtree relation of the search tree. -/
inductive Reachable : Node → Node → Prop
  | refl (n : Node) : Reachable n n
  | head (n c m : Node) : c ∈ n.childrenList → Reachable c m → Reachable n m

theorem validateNode_sound : ∀ (fuel : Nat) (n : Node),
    validateNode fuel n = true → ∃ m, Reachable n m ∧ m.isComplete = true := by
  intro fuel
  induction fuel with
  | zero =>
    intro n h
    exact absurd h (by simp [validateNode])
  | succ f ih =>
    intro n h
    simp only [validateNode] at h
    by_cases h1 : n.isComplete = true
    · exact ⟨n, Reachable.refl n, h1⟩
    · rw [if_neg h1] at h
      by_cases h2 : n.childrenList.any (fun c => c.isComplete) = true
      · obtain ⟨c, hc, hcc⟩ := List.any_eq_true.mp h2
        exact ⟨c, Reachable.head n c c hc (Reachable.refl c), hcc⟩
      · rw [if_neg h2] at h
        obtain ⟨c, hc, hcc⟩ := List.any_eq_true.mp h
        obtain ⟨m, hrm, hcm⟩ := ih c hcc
        exact ⟨m, Reachable.head n c m hc hrm, hcm⟩

theorem reachable_complete_validateNode : ∀ (n m : Node), Reachable n m →
    m.isComplete = true → ∃ fuel, validateNode fuel n = true := by
  intro n m hr
  induction hr with
  | refl k =>
    intro hc
    exact ⟨1, by simp [validateNode, hc]⟩
  | head nn cc mm hmem hr2 ih =>
    intro hc
    obtain ⟨f, hf⟩ := ih hc
    refine ⟨f + 1, ?_⟩
    simp only [validateNode]
    by_cases h1 : nn.isComplete = true
    · rw [if_pos h1]
    · rw [if_neg h1]
      by_cases h2 : nn.childrenList.any (fun c => c.isComplete) = true
      · rw [if_pos h2]
      · rw [if_neg h2]
        exact List.any_eq_true.mpr ⟨cc, hmem, hf⟩

/-- C6: the solvability check _validate_node succeeds (for some, and
hence for every sufficient, recursion depth) exactly when some node of
the subtree (the node itself or one reachable through repeated
children) is complete, completeness being all sequence states
successful. -/
theorem validateNode_iff_reachable_complete (n : Node) :
    (∃ fuel, validateNode fuel n = true) ↔
      (∃ m, Reachable n m ∧ m.isComplete = true) := by
  constructor
  · rintro ⟨f, hf⟩
    exact validateNode_sound f n hf
  · rintro ⟨m, hr, hc⟩
    exact reachable_complete_validateNode n m hr hc

/-- No tile appears twice in the list under Python tile equality
(coordinates only). -/
def pyNodup : List Tile → Bool
  | [] => true
  | t :: ts => (!ts.any (fun x => tileEqPy t x)) && pyNodup ts

theorem tileEqPy_comm (a b : Tile) : tileEqPy a b = tileEqPy b a := by
  unfold tileEqPy
  rw [Bool.eq_iff_iff]
  simp only [Bool.and_eq_true]
  constructor
  · intro h
    have e1 : a.row = b.row := eq_of_beq h.1
    have e2 : a.col = b.col := eq_of_beq h.2
    simp [e1, e2]
  · intro h
    have e1 : b.row = a.row := eq_of_beq h.1
    have e2 : b.col = a.col := eq_of_beq h.2
    simp [e1, e2]

theorem tileInCounter_false (c : Tile) :
    ∀ counter : List (String × Nat), tileInCounter c counter = false := by
  intro counter
  induction counter with
  | nil => rfl
  | cons kv rest ih => simp [tileInCounter, tileEqStr] at ih ⊢

/-- The prime candidate list a live node can see is never a non-empty
list: the Counter membership filter discards every choice. -/
theorem primeCandidatesO_cases (n : Node) :
    n.primeCandidatesO = none ∨ n.primeCandidatesO = some none ∨
      n.primeCandidatesO = some (some []) := by
  unfold Node.primeCandidatesO
  by_cases hc : n.nextUnlocks.isEmpty
  · simp [hc]
  · rw [if_neg hc]
    cases hch : n.choicesO with
    | none => simp
    | some cs =>
      have hf : cs.filter (fun c => tileInCounter c n.nextUnlocks) = [] := by
        simp only [tileInCounter_false]
        exact List.filter_false cs
      dsimp only
      rw [hf]
      simp [sortedByUnlockDesc]

theorem nextCandidatesList_nil_of_full (n : Node)
    (h : n.buffer.state.length = n.maxSize) : n.nextCandidatesList = [] := by
  simp [Node.nextCandidatesList, Node.nextCandidatesO, h]

/-- Every candidate actually expanded is one of the legal choices. -/
theorem mem_nextCandidates_mem_choices (n : Node) (c : Tile)
    (h : c ∈ n.nextCandidatesList) : c ∈ n.choicesList := by
  unfold Node.nextCandidatesList at h
  cases hnc : n.nextCandidatesO with
  | none => rw [hnc] at h; simp at h
  | some o =>
    cases o with
    | none => rw [hnc] at h; simp at h
    | some l =>
      rw [hnc] at h
      dsimp only at h
      unfold Node.nextCandidatesO at hnc
      by_cases h1 : n.buffer.state.length = n.maxSize
      · rw [if_pos h1] at hnc
        cases hnc
      · rw [if_neg h1] at hnc
        by_cases h2 : n.buffer.state.length + 1 = n.maxSize
        · rw [if_pos h2] at hnc
          rcases primeCandidatesO_cases n with hp | hp | hp <;> rw [hp] at hnc <;> cases hnc
        · rw [if_neg h2] at hnc
          cases hch : n.choicesO with
          | none =>
            try rw [hch] at hnc
            cases hnc
          | some cs =>
            try rw [hch] at hnc
            dsimp only at hnc
            cases hnc
            unfold Node.choicesList
            rw [hch]
            exact h

/-- A choice taken with a non-empty buffer is never already in the
buffer: the list comprehension of Node.choices filters on membership. -/
theorem mem_choices_not_contains (n : Node) (c : Tile)
    (hne : n.buffer.state ≠ []) (h : c ∈ n.choicesList) :
    n.buffer.containsPy c = false := by
  unfold Node.choicesList Node.choicesO at h
  cases hl : n.buffer.state.getLast? with
  | none => exact absurd (List.getLast?_eq_none_iff.mp hl) hne
  | some last =>
    try rw [hl] at h
    dsimp only at h
    cases he : (if n.selectionType then n.grid.rows.get? last.row
        else n.grid.columns.get? last.col) with
    | none =>
      try rw [he] at h
      simp at h
    | some els =>
      try rw [he] at h
      have h2 : c ∈ List.filter (fun i => !(n.buffer.containsPy i)) els := by
        simpa using h
      have h3 := (List.mem_filter.mp h2).2
      simpa using h3

theorem pyNodup_append (xs : List Tile) (c : Tile)
    (h1 : pyNodup xs = true) (h2 : xs.any (fun x => tileEqPy x c) = false) :
    pyNodup (xs ++ [c]) = true := by
  induction xs with
  | nil => rfl
  | cons t ts ih =>
    simp only [pyNodup, Bool.and_eq_true, Bool.not_eq_true'] at h1
    simp only [List.any_cons, Bool.or_eq_false_iff] at h2
    have hrec := ih h1.2 h2.2
    have key : (ts ++ [c]).any (fun x => tileEqPy t x) = false := by
      rw [List.any_append, h1.1]
      simp only [Bool.false_or, List.any_cons, List.any_nil, Bool.or_false]
      exact h2.1
    simp only [List.cons_append, pyNodup, Bool.and_eq_true, Bool.not_eq_true']
    exact ⟨key, hrec⟩

/-- One step of the search preserves the path invariant: the child
buffer stays duplicate-free, stays within capacity, and the capacity
itself is passed through unchanged. -/
theorem child_invariant (n m : Node) (hm : m ∈ n.childrenList)
    (h1 : pyNodup n.buffer.state = true) (h2 : n.buffer.state.length ≤ n.maxSize) :
    pyNodup m.buffer.state = true ∧ m.buffer.state.length ≤ m.maxSize := by
  unfold Node.childrenList at hm
  obtain ⟨c, hc, rfl⟩ := List.mem_map.mp hm
  have hlen : n.buffer.state.length ≠ n.maxSize := by
    intro he
    rw [nextCandidatesList_nil_of_full n he] at hc
    exact absurd hc (List.not_mem_nil c)
  constructor
  · show pyNodup (n.buffer.state ++ [c]) = true
    by_cases hb : n.buffer.state = []
    · rw [hb]
      rfl
    · have hcc := mem_nextCandidates_mem_choices n c hc
      have hnc := mem_choices_not_contains n c hb hcc
      exact pyNodup_append n.buffer.state c h1 hnc
  · show (n.buffer.state ++ [c]).length ≤ n.maxSize
    rw [List.length_append, List.length_singleton]
    exact Nat.succ_le_of_lt (Nat.lt_of_le_of_ne h2 hlen)

theorem reachable_invariant : ∀ (r n : Node), Reachable r n →
    (pyNodup r.buffer.state = true ∧ r.buffer.state.length ≤ r.maxSize) →
    (pyNodup n.buffer.state = true ∧ n.buffer.state.length ≤ n.maxSize) := by
  intro r n hr
  induction hr with
  | refl k => exact id
  | head nn cc mm hmem hr2 ih =>
    intro hinv
    exact ih (child_invariant nn cc hmem hinv.1 hinv.2)

/-- C7: every node reachable from a root with an empty path has a path
without repeated cells (under the coordinate equality of Tile) whose
length never exceeds the buffer capacity; taking children preserves
the invariant at every step. -/
theorem reachable_from_empty_invariant (root n : Node)
    (hroot : root.buffer.state = []) (hr : Reachable root n) :
    pyNodup n.buffer.state = true ∧ n.buffer.state.length ≤ n.maxSize := by
  refine reachable_invariant root n hr ⟨?_, ?_⟩
  · rw [hroot]
    rfl
  · rw [hroot]
    exact Nat.zero_le _

/-- C7 witness: the invariant instantiated at a depth-one node of a
concrete search tree, reached by one children step from a root with an
empty path. -/
theorem reachable_from_empty_invariant_witness :
    pyNodup ({ grid := gridInit [["A", "B"]], buffer := ⟨[⟨"A", 0, 0⟩]⟩, maxSize := 2,
               seqs := [["A", "B"]], selectionType := false } : Node).buffer.state = true ∧
    ({ grid := gridInit [["A", "B"]], buffer := ⟨[⟨"A", 0, 0⟩]⟩, maxSize := 2,
       seqs := [["A", "B"]], selectionType := false } : Node).buffer.state.length ≤
      ({ grid := gridInit [["A", "B"]], buffer := ⟨[⟨"A", 0, 0⟩]⟩, maxSize := 2,
         seqs := [["A", "B"]], selectionType := false } : Node).maxSize :=
  reachable_from_empty_invariant
    { grid := gridInit [["A", "B"]], buffer := ⟨[]⟩, maxSize := 2,
      seqs := [["A", "B"]], selectionType := true }
    { grid := gridInit [["A", "B"]], buffer := ⟨[⟨"A", 0, 0⟩]⟩, maxSize := 2,
      seqs := [["A", "B"]], selectionType := false }
    rfl
    (Reachable.head _ _ _ (by decide) (Reachable.refl _))
